import Mathlib

/-!
# Verification of the allude_sim RISC-V core against its specification

Shallow embedding, in Lean 4, of the parts of the `allude_sim` RV32 simulator
that the verified properties speak about: the trap unit (`src/cpu.rs`,
`src/cpu/trap.rs`), the privileged-return executor (`src/cpu/exu/priv_instr.rs`),
the M-extension executor (`src/cpu/exu/rv32m.rs`), the Zicsr executor
(`src/cpu/exu/zicsr.rs`), the FMIN/FMAX path of the F executor
(`src/cpu/exu/rv32f.rs`), the decoder registry (`src/isa/decoder.rs`), the
instruction-table conflict predicate (`src/isa/instr_def.rs`), and the
HTIF test driver (`src/sim_env.rs`).

Machine words are `Nat` values; 32-bit wrap-around is an explicit `% 2^32`
where the Rust code wraps, and Rust's bitwise `&`, `|`, `^`, `!`, `<<`, `>>`
on `u32` are `Nat.land`/`lor`/`xor`/(xor with the all-ones mask)/`shiftLeft`/
`shiftRight`.  Rust `as i32` reinterpretation is `toSigned`, `as u32` is
`toU32`.  Register files and the CSR bank (a hash map reading 0 for missing
addresses) are total functions defaulting to 0.
-/

namespace AlludeSim

/-- The 32-bit all-ones word; Rust's `u32::MAX`. -/
def u32Max : Nat := 0xFFFFFFFF

/-- Rust bitwise NOT on `u32` (`!m`): xor with the all-ones 32-bit word. -/
def not32 (m : Nat) : Nat := u32Max ^^^ m

/-- Rust `as i32` on a `u32` bit pattern (two's-complement reinterpretation). -/
def toSigned (x : Nat) : Int :=
  if x < 2 ^ 31 then (x : Int) else (x : Int) - 2 ^ 32

/-- Rust `as u32` on a signed value (truncating two's-complement cast). -/
def toU32 (i : Int) : Nat := (i % 2 ^ 32).toNat

-- ===========================================================================
-- src/cpu/trap.rs
-- ===========================================================================

/-- Mirrors `PrivilegeMode` (src/cpu/trap.rs): four-valued privilege level. -/
inductive PrivilegeMode where
  | User
  | Supervisor
  | Reserved
  | Machine
deriving DecidableEq, Repr

namespace PrivilegeMode

/-- Mirrors `PrivilegeMode::from_bits`: decode a 2-bit encoding; `2` (reserved)
falls back to `Machine`. -/
def from_bits (bits : Nat) : PrivilegeMode :=
  match bits &&& 0x3 with
  | 0 => .User
  | 1 => .Supervisor
  | 3 => .Machine
  | _ => .Machine

/-- Mirrors `PrivilegeMode::to_bits`: the 2-bit encoding (the `repr(u8)` value). -/
def to_bits : PrivilegeMode → Nat
  | .User => 0
  | .Supervisor => 1
  | .Reserved => 2
  | .Machine => 3

end PrivilegeMode

/-- Mirrors `TrapCause` (src/cpu/trap.rs): the closed enumeration of trap causes. -/
inductive TrapCause where
  | InstructionAddressMisaligned
  | InstructionAccessFault
  | IllegalInstruction
  | Breakpoint
  | LoadAddressMisaligned
  | LoadAccessFault
  | StoreAddressMisaligned
  | StoreAccessFault
  | EcallFromU
  | EcallFromS
  | EcallFromM
  | InstructionPageFault
  | LoadPageFault
  | StorePageFault
  | UserSoftwareInterrupt
  | SupervisorSoftwareInterrupt
  | MachineSoftwareInterrupt
  | UserTimerInterrupt
  | SupervisorTimerInterrupt
  | MachineTimerInterrupt
  | UserExternalInterrupt
  | SupervisorExternalInterrupt
  | MachineExternalInterrupt
deriving DecidableEq, Repr

namespace TrapCause

/-- Mirrors `TrapCause::is_interrupt` (src/cpu/trap.rs). -/
def is_interrupt : TrapCause → Bool
  | .UserSoftwareInterrupt | .SupervisorSoftwareInterrupt | .MachineSoftwareInterrupt
  | .UserTimerInterrupt | .SupervisorTimerInterrupt | .MachineTimerInterrupt
  | .UserExternalInterrupt | .SupervisorExternalInterrupt
  | .MachineExternalInterrupt => true
  | _ => false

/-- Mirrors `TrapCause::code` (src/cpu/trap.rs): the mcause low-bits code. -/
def code : TrapCause → Nat
  | .InstructionAddressMisaligned => 0
  | .InstructionAccessFault => 1
  | .IllegalInstruction => 2
  | .Breakpoint => 3
  | .LoadAddressMisaligned => 4
  | .LoadAccessFault => 5
  | .StoreAddressMisaligned => 6
  | .StoreAccessFault => 7
  | .EcallFromU => 8
  | .EcallFromS => 9
  | .EcallFromM => 11
  | .InstructionPageFault => 12
  | .LoadPageFault => 13
  | .StorePageFault => 15
  | .UserSoftwareInterrupt => 0
  | .SupervisorSoftwareInterrupt => 1
  | .MachineSoftwareInterrupt => 3
  | .UserTimerInterrupt => 4
  | .SupervisorTimerInterrupt => 5
  | .MachineTimerInterrupt => 7
  | .UserExternalInterrupt => 8
  | .SupervisorExternalInterrupt => 9
  | .MachineExternalInterrupt => 11

/-- Mirrors `TrapCause::to_cause_value` (src/cpu/trap.rs): bit 31 marks interrupts,
low bits hold the code. -/
def to_cause_value (c : TrapCause) : Nat :=
  (if c.is_interrupt then 1 <<< 31 else 0) ||| c.code

/-- Mirrors `TrapCause::ecall_from` (src/cpu/trap.rs). -/
def ecall_from : PrivilegeMode → TrapCause
  | .User => .EcallFromU
  | .Supervisor => .EcallFromS
  | .Machine => .EcallFromM
  | .Reserved => .EcallFromM

end TrapCause

-- The `mstatus` field constants of src/cpu/trap.rs (`mod mstatus`).
namespace mstatus

def MIE : Nat := 3
def MPIE : Nat := 7
def SIE : Nat := 1
def SPIE : Nat := 5
def SPP : Nat := 8
def MPP : Nat := 11

def MIE_MASK : Nat := 1 <<< MIE
def MPIE_MASK : Nat := 1 <<< MPIE
def MPP_MASK : Nat := 0x3 <<< MPP
def SIE_MASK : Nat := 1 <<< SIE
def SPIE_MASK : Nat := 1 <<< SPIE
def SPP_MASK : Nat := 1 <<< SPP

/-- Mirrors `mstatus::read_mpp`. -/
def read_mpp (m : Nat) : Nat := (m >>> MPP) &&& 0x3

/-- Mirrors `mstatus::write_mpp`. -/
def write_mpp (m mpp : Nat) : Nat := (m &&& not32 MPP_MASK) ||| ((mpp &&& 0x3) <<< MPP)

/-- Mirrors `mstatus::read_mie`. -/
def read_mie (m : Nat) : Bool := (m &&& MIE_MASK) ≠ 0

/-- Mirrors `mstatus::read_mpie`. -/
def read_mpie (m : Nat) : Bool := (m &&& MPIE_MASK) ≠ 0

end mstatus

/-- Mirrors `TvecMode` (src/cpu/trap.rs). -/
inductive TvecMode where
  | Direct
  | Vectored
deriving DecidableEq, Repr

/-- Mirrors `TvecMode::from_bits`: low two bits; reserved encodings fall back to
`Direct`. -/
def TvecMode.from_bits (bits : Nat) : TvecMode :=
  match bits &&& 0x3 with
  | 0 => .Direct
  | 1 => .Vectored
  | _ => .Direct

/-- Mirrors `parse_tvec` (src/cpu/trap.rs): split mtvec into (base, mode). -/
def parse_tvec (tvec : Nat) : Nat × TvecMode :=
  (tvec &&& not32 0x3, TvecMode.from_bits tvec)

/-- Mirrors `calculate_trap_pc` (src/cpu/trap.rs). -/
def calculate_trap_pc (tvec : Nat) (cause : TrapCause) : Nat :=
  let (base, mode) := parse_tvec tvec
  match mode with
  | .Direct => base
  | .Vectored =>
      if cause.is_interrupt then (base + 4 * cause.code) % 2 ^ 32 else base

-- ===========================================================================
-- src/cpu/status.rs and src/cpu/csr_def.rs
-- ===========================================================================

/-- CSR addresses from src/cpu/csr_def.rs used by the trap unit. -/
def CSR_MSTATUS : Nat := 0x300

def CSR_MTVEC : Nat := 0x305

def CSR_MEPC : Nat := 0x341

def CSR_MCAUSE : Nat := 0x342

def CSR_MTVAL : Nat := 0x343

def CSR_SSTATUS : Nat := 0x100

def CSR_SEPC : Nat := 0x141

def CSR_FCSR : Nat := 0x003

/-- Mirrors `Status` (src/cpu/status.rs): integer register file, CSR bank, privilege.
The `CsrBank` hash map reads 0 at missing addresses and accepts every write,
so it is a total function from address to value starting at `fun _ => 0`.
The optional FP file (`Option<FpRegFile>`, no zero-hardwire) is `fp`. -/
structure Status where
  int : Nat → Nat
  fp : Option (Nat → Nat)
  csr : Nat → Nat
  privilege : PrivilegeMode

/-- Mirrors `RegFile::read` with the zero-hardwire (`GenericRegFile`, x0 reads 0). -/
def Status.int_read (s : Status) (reg : Nat) : Nat :=
  if reg = 0 then 0 else s.int reg

/-- Mirrors `RegFile::write` with the zero-hardwire (writes to x0 are dropped). -/
def Status.int_write (s : Status) (reg v : Nat) : Status :=
  if reg = 0 then s else { s with int := fun r => if r = reg then v else s.int r }

/-- Mirrors `CsrBank::read`: missing addresses read 0 (total map defaulting to 0). -/
def Status.csr_read (s : Status) (addr : Nat) : Nat := s.csr addr

/-- Mirrors `CsrBank::write`: unconditional insert. -/
def Status.csr_write (s : Status) (addr v : Nat) : Status :=
  { s with csr := fun a => if a = addr then v else s.csr a }

-- ===========================================================================
-- src/cpu.rs: CpuCore and the trap entry
-- ===========================================================================

/-- Mirrors `CpuState` (src/cpu.rs). -/
inductive CpuState where
  | Running
  | IllegalInstruction (raw : Nat)
  | WaitForInterrupt
  | Halted
deriving DecidableEq, Repr

/-- Mirrors `CpuCore` (src/cpu.rs): architectural status, PC and run state.
The decoder handle is not part of the state the claims touch. -/
structure CpuCore where
  status : Status
  pc : Nat
  state : CpuState

namespace CpuCore

def read_reg (cpu : CpuCore) (reg : Nat) : Nat := cpu.status.int_read reg

def write_reg (cpu : CpuCore) (reg v : Nat) : CpuCore :=
  { cpu with status := cpu.status.int_write reg v }

def csr_read (cpu : CpuCore) (addr : Nat) : Nat := cpu.status.csr_read addr

def csr_write (cpu : CpuCore) (addr v : Nat) : CpuCore :=
  { cpu with status := cpu.status.csr_write addr v }

def privilege (cpu : CpuCore) : PrivilegeMode := cpu.status.privilege

def set_privilege (cpu : CpuCore) (m : PrivilegeMode) : CpuCore :=
  { cpu with status := { cpu.status with privilege := m } }

def set_pc (cpu : CpuCore) (pc : Nat) : CpuCore := { cpu with pc := pc }

def set_state (cpu : CpuCore) (st : CpuState) : CpuCore := { cpu with state := st }

/-- Mirrors `CpuCore::read_fp`: 0 when the F extension is disabled. -/
def read_fp (cpu : CpuCore) (reg : Nat) : Nat :=
  match cpu.status.fp with
  | some f => f reg
  | none => 0

/-- Mirrors `CpuCore::write_fp`: dropped when the F extension is disabled. -/
def write_fp (cpu : CpuCore) (reg v : Nat) : CpuCore :=
  match cpu.status.fp with
  | some f =>
      { cpu with status :=
          { cpu.status with fp := some (fun r => if r = reg then v else f r) } }
  | none => cpu

/-- Mirrors `CpuCore::take_trap_at` (src/cpu.rs lines 190-237), statement by
statement: record mepc/mcause/mtval, update the mstatus fields, enter
Machine mode, jump to the trap PC from mtvec. -/
def take_trap_at (cpu : CpuCore) (cause : TrapCause) (tval epc : Nat) : CpuCore :=
  let cpu := cpu.csr_write CSR_MEPC epc
  let cpu := cpu.csr_write CSR_MCAUSE cause.to_cause_value
  let cpu := cpu.csr_write CSR_MTVAL tval
  let mstatusVal := cpu.csr_read CSR_MSTATUS
  let mie := mstatus.read_mie mstatusVal
  let new_mstatus := mstatusVal
  let new_mstatus :=
    if mie then new_mstatus ||| mstatus.MPIE_MASK
    else new_mstatus &&& not32 mstatus.MPIE_MASK
  let new_mstatus := new_mstatus &&& not32 mstatus.MIE_MASK
  let new_mstatus := mstatus.write_mpp new_mstatus cpu.status.privilege.to_bits
  let cpu := cpu.csr_write CSR_MSTATUS new_mstatus
  let cpu := cpu.set_privilege .Machine
  let mtvec := cpu.csr_read CSR_MTVEC
  cpu.set_pc (calculate_trap_pc mtvec cause)

/-- Mirrors `CpuCore::take_trap`: trap at the current PC. -/
def take_trap (cpu : CpuCore) (cause : TrapCause) (tval : Nat) : CpuCore :=
  cpu.take_trap_at cause tval cpu.pc

end CpuCore

-- ===========================================================================
-- src/isa/instr.rs (the variants the verified executors consume)
-- ===========================================================================

/-- Mirrors the `RvInstr` enum (src/isa/instr.rs), restricted to the variants
the verified executor code paths match on; every other variant of the Rust
enum falls into the executors' catch-all arm exactly as `Illegal` does here. -/
inductive RvInstr where
  | Mul (rd rs1 rs2 : Nat)
  | Mulh (rd rs1 rs2 : Nat)
  | Mulhsu (rd rs1 rs2 : Nat)
  | Mulhu (rd rs1 rs2 : Nat)
  | Div (rd rs1 rs2 : Nat)
  | Divu (rd rs1 rs2 : Nat)
  | Rem (rd rs1 rs2 : Nat)
  | Remu (rd rs1 rs2 : Nat)
  | Csrrw (rd rs1 csr : Nat)
  | Csrrs (rd rs1 csr : Nat)
  | Csrrc (rd rs1 csr : Nat)
  | Csrrwi (rd zimm csr : Nat)
  | Csrrsi (rd zimm csr : Nat)
  | Csrrci (rd zimm csr : Nat)
  | Mret
  | Sret
  | Wfi
  | Illegal (raw : Nat)
deriving DecidableEq, Repr

-- ===========================================================================
-- src/cpu/exu/priv_instr.rs
-- ===========================================================================

/-- Mirrors `execute_mret` (src/cpu/exu/priv_instr.rs lines 38-70). -/
def execute_mret (cpu : CpuCore) : CpuCore :=
  let mstatus_val := cpu.csr_read CSR_MSTATUS
  let mpie := mstatus.read_mpie mstatus_val
  let mpp := mstatus.read_mpp mstatus_val
  let new_mstatus := mstatus_val
  let new_mstatus :=
    if mpie then new_mstatus ||| mstatus.MIE_MASK
    else new_mstatus &&& not32 mstatus.MIE_MASK
  let new_mstatus := mstatus.write_mpp new_mstatus 0
  let new_mstatus := new_mstatus ||| mstatus.MPIE_MASK
  let cpu := cpu.csr_write CSR_MSTATUS new_mstatus
  let cpu := cpu.set_privilege (PrivilegeMode.from_bits mpp)
  cpu.set_pc (cpu.csr_read CSR_MEPC)

/-- Mirrors `execute_sret` (src/cpu/exu/priv_instr.rs). -/
def execute_sret (cpu : CpuCore) : CpuCore :=
  let sstatus_val := cpu.csr_read CSR_SSTATUS
  let spie := (sstatus_val >>> mstatus.SPIE) &&& 1 ≠ 0
  let spp := (sstatus_val >>> mstatus.SPP) &&& 1
  let new_sstatus := sstatus_val
  let new_sstatus :=
    if spie then new_sstatus ||| mstatus.SIE_MASK
    else new_sstatus &&& not32 mstatus.SIE_MASK
  let new_sstatus := new_sstatus &&& not32 mstatus.SPP_MASK
  let new_sstatus := new_sstatus ||| mstatus.SPIE_MASK
  let cpu := cpu.csr_write CSR_SSTATUS new_sstatus
  let cpu := cpu.set_privilege
    (if spp = 0 then PrivilegeMode.User else PrivilegeMode.Supervisor)
  cpu.set_pc (cpu.csr_read CSR_SEPC)

/-- Mirrors `execute_wfi` (src/cpu/exu/priv_instr.rs). -/
def execute_wfi (cpu : CpuCore) : CpuCore :=
  cpu.set_state CpuState.WaitForInterrupt

/-- Mirrors `priv_instr::execute` (src/cpu/exu/priv_instr.rs): `some` stands
for the Rust `true` (instruction handled) carrying the updated core. -/
def priv_execute (cpu : CpuCore) (instr : RvInstr) : Option CpuCore :=
  match instr with
  | .Mret => some (execute_mret cpu)
  | .Sret => some (execute_sret cpu)
  | .Wfi => some (execute_wfi cpu)
  | _ => none

-- ===========================================================================
-- src/sim_env.rs: TestResult and run_isa_test
-- ===========================================================================

/-- Mirrors `TestResult` (src/sim_env.rs). -/
inductive TestResult where
  | Pass
  | Fail (n : Nat)
  | Timeout
deriving DecidableEq, Repr

/-- Mirrors `TestResult::from_tohost` (src/sim_env.rs lines 556-568). -/
def TestResult.from_tohost (value : Nat) : TestResult :=
  if value = 1 then TestResult.Pass
  else if value ≠ 0 then TestResult.Fail (value >>> 1)
  else TestResult.Timeout

/-- Mirrors the `SimEnv` fields that `run_isa_test` consults.  The CPU core,
memory and configuration are the opaque `rest` component: the claims below
hold for every behavior of those parts, so they are abstracted behind the
`SimOps` operations. -/
structure SimEnvSt (σ : Type) where
  tohost_addr : Option Nat
  fromhost_addr : Option Nat
  instructions_executed : Nat
  rest : σ

/-- Operations of `SimEnv` that `run_isa_test` calls into (src/sim_env.rs):
`run` (CpuCore::run through SimEnv::run), `step`, `check_tohost` and
`clear_htif_mailboxes`.  They are parameters: the theorem about the absent
tohost symbol quantifies over every possible implementation of them. -/
structure SimOps (σ : Type) where
  run : Nat → SimEnvSt σ → Nat × CpuState × SimEnvSt σ
  step : SimEnvSt σ → CpuState × SimEnvSt σ
  check_tohost : SimEnvSt σ → Option Nat × SimEnvSt σ
  clear_htif_mailboxes : SimEnvSt σ → SimEnvSt σ

/-- The `for _ in 0..max` polling loop of `run_isa_test` (src/sim_env.rs
lines 850-869), with the iteration count as fuel; the `break` lands in the
Timeout tail exactly as in the source. -/
def isa_test_loop {σ : Type} (ops : SimOps σ) (start : Nat) :
    Nat → SimEnvSt σ → TestResult × Nat
  | 0, env => (TestResult.Timeout, env.instructions_executed - start)
  | fuel + 1, env =>
    let (state, env) := ops.step env
    match ops.check_tohost env with
    | (some value, env) =>
        (TestResult.from_tohost value, env.instructions_executed - start)
    | (none, env) =>
        if state ≠ CpuState.Running then
          match ops.check_tohost env with
          | (some value, env) =>
              (TestResult.from_tohost value, env.instructions_executed - start)
          | (none, env) => (TestResult.Timeout, env.instructions_executed - start)
        else isa_test_loop ops start fuel env

/-- Mirrors `SimEnv::run_isa_test` (src/sim_env.rs lines 831-874). -/
def run_isa_test {σ : Type} (ops : SimOps σ) (env : SimEnvSt σ)
    (max_instructions : Nat) : TestResult × Nat :=
  let max := if max_instructions > 0 then max_instructions else 1000000
  match env.tohost_addr with
  | none =>
    let start := env.instructions_executed
    let (executed, _state, env) := ops.run max env
    let delta := env.instructions_executed - start
    let reported := if delta = 0 then executed else delta
    (TestResult.Timeout, reported)
  | some _ =>
    let env := ops.clear_htif_mailboxes env
    let start := env.instructions_executed
    isa_test_loop ops start max env

-- ===========================================================================
-- src/isa/decoder.rs: DecoderRegistry::register
-- ===========================================================================

/-- The `InstrDecoder` trait surface that `DecoderRegistry::register`
consults (src/isa/decoder.rs): the decoder name, the declared opcode list
(`none` is the wildcard) and the overlap permission. -/
structure DecoderSig where
  name : String
  handled_opcodes : Option (List Nat)
  allow_opcode_overlap : Bool
deriving DecidableEq, Repr

/-- Placeholder for an out-of-range decoder index; registration keeps every
stored index below `decoders.length`, so it is never consulted. -/
def defaultDecoderSig : DecoderSig := ⟨"", none, false⟩

/-- Mirrors `DecoderRegistry` (src/isa/decoder.rs): the decoder list and the
128 opcode buckets of decoder indices.  The bucket array is a function;
indices 128 and above stay empty, as the source array has no such buckets. -/
structure DecoderRegistry where
  decoders : List DecoderSig
  opcode_map : Nat → List Nat

/-- Mirrors `DecoderRegistry::new`. -/
def DecoderRegistry.new : DecoderRegistry :=
  { decoders := [], opcode_map := fun _ => [] }

/-- The errors of `DecoderRegistry::register`; the source formats them as
strings naming the first conflicting opcode (or the wildcard) and the
decoder, carried here structurally. -/
inductive RegisterError where
  | opcodeTaken (op : Nat) (decoderName : String)
  | wildcardOverlap (decoderName : String)
deriving DecidableEq, Repr

/-- Mirrors `DecoderRegistry::register` (src/isa/decoder.rs lines 60-108):
conflict detection first (returning the first conflicting opcode), then the
bucket insertion. -/
def DecoderRegistry.register (r : DecoderRegistry) (decoder : DecoderSig) :
    Except RegisterError DecoderRegistry :=
  let idx := r.decoders.length
  match decoder.handled_opcodes with
  | some opcodes =>
    match opcodes.find? (fun op =>
        decide (op < 128) && !(r.opcode_map op).isEmpty &&
          ((r.opcode_map op).any
              (fun i => !(r.decoders.getD i defaultDecoderSig).allow_opcode_overlap) ||
            !decoder.allow_opcode_overlap)) with
    | some op => Except.error (RegisterError.opcodeTaken op decoder.name)
    | none =>
      Except.ok
        { decoders := r.decoders ++ [decoder]
          opcode_map := opcodes.foldl
            (fun m op =>
              if op < 128 then fun o => if o = op then m o ++ [idx] else m o else m)
            r.opcode_map }
  | none =>
    let has_blocking := (List.range 128).any (fun op =>
      (r.opcode_map op).any
        (fun i => !(r.decoders.getD i defaultDecoderSig).allow_opcode_overlap))
    if has_blocking || !decoder.allow_opcode_overlap then
      Except.error (RegisterError.wildcardOverlap decoder.name)
    else
      Except.ok
        { decoders := r.decoders ++ [decoder]
          opcode_map := fun op => if op < 128 then r.opcode_map op ++ [idx] else r.opcode_map op }

-- ===========================================================================
-- src/isa/instr_def.rs: InstrDef and the conflict predicate
-- ===========================================================================

/-- Mirrors `InstrDef` (src/isa/instr_def.rs); the `decode` build function
plays no part in matching or conflict detection and is omitted.
`InstrSignature::conflicts_with` (src/isa/config.rs lines 96-102) computes
the identical predicate over the same mask/match pair. -/
structure InstrDef where
  name : String
  mask : Nat
  match_val : Nat
deriving DecidableEq, Repr

/-- Mirrors `InstrDef::matches`. -/
def InstrDef.matches (d : InstrDef) (raw : Nat) : Bool :=
  (raw &&& d.mask) == d.match_val

/-- Mirrors `InstrDef::conflicts_with` (src/isa/instr_def.rs lines 59-62). -/
def InstrDef.conflicts_with (a b : InstrDef) : Bool :=
  let common_mask := a.mask &&& b.mask
  (a.match_val &&& common_mask) == (b.match_val &&& common_mask)

-- ===========================================================================
-- src/cpu/exu/rv32m.rs
-- ===========================================================================

/-- Mirrors `rv32m::execute` (src/cpu/exu/rv32m.rs): `some` is the Rust
`true` return (instruction handled) carrying the updated core; the Rust
`as i32`/`as i64`/`as u64`/`as u32` casts become `toSigned`, Int casts and
`toU32`, and `>>` on a signed 64-bit product is the arithmetic shift `>>>`
on `Int`. -/
def rv32m_execute (cpu : CpuCore) (instr : RvInstr) : Option CpuCore :=
  match instr with
  | .Mul rd rs1 rs2 =>
      let a := cpu.read_reg rs1
      let b := cpu.read_reg rs2
      let result := (a * b) % 2 ^ 32
      some (cpu.write_reg rd result)
  | .Mulh rd rs1 rs2 =>
      let a := toSigned (cpu.read_reg rs1)
      let b := toSigned (cpu.read_reg rs2)
      let result := toU32 ((a * b) >>> 32)
      some (cpu.write_reg rd result)
  | .Mulhsu rd rs1 rs2 =>
      let a := toSigned (cpu.read_reg rs1)
      let b := (cpu.read_reg rs2 : Int)
      let result := toU32 ((a * b) >>> 32)
      some (cpu.write_reg rd result)
  | .Mulhu rd rs1 rs2 =>
      let a := cpu.read_reg rs1
      let b := cpu.read_reg rs2
      let result := (a * b) >>> 32
      some (cpu.write_reg rd result)
  | .Div rd rs1 rs2 =>
      let a := toSigned (cpu.read_reg rs1)
      let b := toSigned (cpu.read_reg rs2)
      let result :=
        if b = 0 then toU32 (-1)
        else if a = -(2 ^ 31) ∧ b = -1 then toU32 a
        else toU32 (a.tdiv b)
      some (cpu.write_reg rd result)
  | .Divu rd rs1 rs2 =>
      let a := cpu.read_reg rs1
      let b := cpu.read_reg rs2
      let result := if b = 0 then u32Max else a / b
      some (cpu.write_reg rd result)
  | .Rem rd rs1 rs2 =>
      let a := toSigned (cpu.read_reg rs1)
      let b := toSigned (cpu.read_reg rs2)
      let result :=
        if b = 0 then toU32 a
        else if a = -(2 ^ 31) ∧ b = -1 then 0
        else toU32 (a.tmod b)
      some (cpu.write_reg rd result)
  | .Remu rd rs1 rs2 =>
      let a := cpu.read_reg rs1
      let b := cpu.read_reg rs2
      let result := if b = 0 then a else a % b
      some (cpu.write_reg rd result)
  | _ => none

-- ===========================================================================
-- src/cpu/exu/zicsr.rs
-- ===========================================================================

/-- One observable architectural access of the Zicsr executor: each
`cpu.read_reg` / `cpu.write_reg` / `cpu.csr_read` / `cpu.csr_write` call in
`zicsr::execute` logs one event, in call order.  The trace makes the
side-effect discipline of the claim (skipped CSR pre-reads, conditional
write-backs) observable in a pure embedding. -/
inductive ZEvent where
  | regRead (r : Nat)
  | regWrite (r v : Nat)
  | csrRead (addr : Nat)
  | csrWrite (addr v : Nat)
deriving DecidableEq, Repr

def ZEvent.isCsrRead : ZEvent → Bool
  | .csrRead _ => true
  | _ => false

def ZEvent.isRegWrite : ZEvent → Bool
  | .regWrite _ _ => true
  | _ => false

def ZEvent.isCsrWrite : ZEvent → Bool
  | .csrWrite _ _ => true
  | _ => false

/-- Mirrors `zicsr::execute` (src/cpu/exu/zicsr.rs lines 9-78), instrumented
with the access trace; `some` is the Rust `true` (instruction handled). -/
def zicsr_execute (cpu : CpuCore) (instr : RvInstr) :
    Option (CpuCore × List ZEvent) :=
  match instr with
  | .Csrrw rd rs1 csr =>
      let rs1_val := cpu.read_reg rs1
      let (cpu, evs) :=
        if rd ≠ 0 then
          let old_val := cpu.csr_read csr
          (cpu.write_reg rd old_val,
            [ZEvent.regRead rs1, ZEvent.csrRead csr, ZEvent.regWrite rd old_val])
        else (cpu, [ZEvent.regRead rs1])
      some (cpu.csr_write csr rs1_val, evs ++ [ZEvent.csrWrite csr rs1_val])
  | .Csrrs rd rs1 csr =>
      let old_val := cpu.csr_read csr
      let cpu := cpu.write_reg rd old_val
      let evs := [ZEvent.csrRead csr, ZEvent.regWrite rd old_val]
      if rs1 ≠ 0 then
        let rs1_val := cpu.read_reg rs1
        some (cpu.csr_write csr (old_val ||| rs1_val),
          evs ++ [ZEvent.regRead rs1, ZEvent.csrWrite csr (old_val ||| rs1_val)])
      else some (cpu, evs)
  | .Csrrc rd rs1 csr =>
      let old_val := cpu.csr_read csr
      let cpu := cpu.write_reg rd old_val
      let evs := [ZEvent.csrRead csr, ZEvent.regWrite rd old_val]
      if rs1 ≠ 0 then
        let rs1_val := cpu.read_reg rs1
        some (cpu.csr_write csr (old_val &&& not32 rs1_val),
          evs ++ [ZEvent.regRead rs1, ZEvent.csrWrite csr (old_val &&& not32 rs1_val)])
      else some (cpu, evs)
  | .Csrrwi rd zimm csr =>
      let (cpu, evs) :=
        if rd ≠ 0 then
          let old_val := cpu.csr_read csr
          (cpu.write_reg rd old_val,
            [ZEvent.csrRead csr, ZEvent.regWrite rd old_val])
        else (cpu, [])
      some (cpu.csr_write csr zimm, evs ++ [ZEvent.csrWrite csr zimm])
  | .Csrrsi rd zimm csr =>
      let old_val := cpu.csr_read csr
      let cpu := cpu.write_reg rd old_val
      let evs := [ZEvent.csrRead csr, ZEvent.regWrite rd old_val]
      if zimm ≠ 0 then
        some (cpu.csr_write csr (old_val ||| zimm),
          evs ++ [ZEvent.csrWrite csr (old_val ||| zimm)])
      else some (cpu, evs)
  | .Csrrci rd zimm csr =>
      let old_val := cpu.csr_read csr
      let cpu := cpu.write_reg rd old_val
      let evs := [ZEvent.csrRead csr, ZEvent.regWrite rd old_val]
      if zimm ≠ 0 then
        some (cpu.csr_write csr (old_val &&& not32 zimm),
          evs ++ [ZEvent.csrWrite csr (old_val &&& not32 zimm)])
      else some (cpu, evs)
  | _ => none

-- ===========================================================================
-- src/cpu/exu/rv32f.rs: FMIN.S / FMAX.S
-- ===========================================================================

/-- The `fflags` NV (invalid-operation) bit (src/cpu/exu/rv32f.rs, mod
fflags): 1 << 4. -/
def fflags_NV : Nat := 1 <<< 4

/-- Mirrors `CANONICAL_NAN` (src/cpu/exu/rv32f.rs). -/
def CANONICAL_NAN : Nat := 0x7FC00000

/-- Mirrors `set_fflags` (src/cpu/exu/rv32f.rs): OR the flag bits into fcsr. -/
def set_fflags (cpu : CpuCore) (flags : Nat) : CpuCore :=
  cpu.csr_write CSR_FCSR (cpu.csr_read CSR_FCSR ||| flags)

/-- Mirrors `is_signaling_nan_bits` (src/cpu/exu/rv32f.rs). -/
def is_signaling_nan_bits (bits : Nat) : Bool :=
  let exp := bits &&& 0x7F800000
  let frac := bits &&& 0x007FFFFF
  exp == 0x7F800000 && frac != 0 && (frac &&& 0x00400000) == 0

/-- Embeds `f32::is_nan` of `f32::from_bits(bits)`: all-ones exponent with a
non-zero fraction. -/
def f32_is_nan_bits (bits : Nat) : Bool :=
  (bits &&& 0x7F800000) == 0x7F800000 && (bits &&& 0x007FFFFF) != 0

/-- Embeds the `f32` comparison `from_bits(bits) == 0.0` for non-NaN
patterns: the magnitude bits are all zero (either signed zero). -/
def f32_is_zero_bits (bits : Nat) : Bool := (bits &&& 0x7FFFFFFF) == 0

/-- Sign-magnitude integer reading of an IEEE-754 single bit pattern; on
non-NaN operands the `f32` order `<` coincides with the order of this
value (the standard sign-magnitude characterization of IEEE comparison). -/
def f32_ord (bits : Nat) : Int :=
  if bits &&& 0x80000000 ≠ 0 then -(((bits &&& 0x7FFFFFFF) : Nat) : Int)
  else ((bits &&& 0x7FFFFFFF : Nat) : Int)

/-- Embeds the `f32` comparison `a < b` on non-NaN bit patterns. -/
def f32_lt (a b : Nat) : Bool := f32_ord a < f32_ord b

/-- Mirrors `handle_min_max` (src/cpu/exu/rv32f.rs lines 96-136).  The Rust
`a > b` on non-NaN floats is `f32_lt b_bits a_bits`. -/
def handle_min_max (cpu : CpuCore) (frd frs1 frs2 : Nat) (is_min : Bool) : CpuCore :=
  let a_bits := cpu.read_fp frs1
  let b_bits := cpu.read_fp frs2
  let a_nan := f32_is_nan_bits a_bits
  let b_nan := f32_is_nan_bits b_bits
  let flag_bits :=
    if is_signaling_nan_bits a_bits || is_signaling_nan_bits b_bits then fflags_NV
    else 0
  let result_bits :=
    if a_nan && b_nan then CANONICAL_NAN
    else if a_nan then b_bits
    else if b_nan then a_bits
    else if f32_is_zero_bits a_bits && f32_is_zero_bits b_bits then
      (if is_min then a_bits ||| b_bits else a_bits &&& b_bits)
    else if a_bits == b_bits then a_bits
    else
      let choose_a := if is_min then f32_lt a_bits b_bits else f32_lt b_bits a_bits
      if choose_a then a_bits else b_bits
  let cpu := cpu.write_fp frd result_bits
  if flag_bits ≠ 0 then set_fflags cpu flag_bits else cpu

/-- An F-enabled core whose FP registers all hold the quiet NaN 0x7FC00000
and whose fcsr is 0, for the C9 counterexample. -/
def fminmax_qnan_core : CpuCore :=
  CpuCore.mk
    (Status.mk (fun _ => 0) (some (fun _ => 0x7FC00000)) (fun _ => 0)
      PrivilegeMode.Machine)
    0 CpuState.Running

/-- An F-enabled core with a signaling NaN in f1 and 1.0 in f2, fcsr 0. -/
def fminmax_snan_core : CpuCore :=
  CpuCore.mk
    (Status.mk (fun _ => 0)
      (some (fun r => if r = 1 then 0x7F800001 else 0x3F800000)) (fun _ => 0)
      PrivilegeMode.Machine)
    0 CpuState.Running

-- ===========================================================================
-- src/cpu.rs: the fetch stage of CpuCore::step
-- ===========================================================================

/-- Mirrors `AccessSize` (src/memory.rs). -/
inductive AccessSize where
  | Byte
  | Half
  | Word
deriving DecidableEq, Repr

/-- Mirrors `MemError` (src/memory.rs). -/
inductive MemError where
  | Unaligned (addr : Nat) (access : AccessSize)
  | OutOfRange (addr : Nat) (access : AccessSize) (base : Nat) (size : Nat)
deriving DecidableEq, Repr

/-- Modelled from the spec: the fetch stage of `CpuCore::step`.  The
revision of src/cpu.rs whose `step` handles the fallible `Memory` trait is
absent from the staged sources — src/src/cpu.rs line 271 feeds
`mem.load32(self.pc)` straight into `decode`, which predates the
`MemResult` signature of src/src/memory.rs, and the helpers it would use
(`CpuCore::mem_result`, `MemAccessType`) are referenced by
src/src/cpu/exu/rv32i.rs and rv32f.rs but defined nowhere under src/.
Following the spec (section 4.K step 1: "Fetch 4 bytes at PC (word load
from memory). Failure raises `InstructionAccessFault`", with section 7
giving traps tval = faulting address and epc = current_pc), a failed word
load at the PC takes a trap through the real `take_trap_at` embedding with
cause `InstructionAccessFault`; on success the decoded instruction is
handed to the executor chain, abstracted here as `exec`. -/
def step_fetch (cpu : CpuCore) (load32 : Nat → Except MemError Nat)
    (exec : CpuCore → Nat → CpuCore) : CpuCore :=
  if cpu.state ≠ CpuState.Running then cpu
  else
    match load32 cpu.pc with
    | Except.error _ =>
        cpu.take_trap_at TrapCause.InstructionAccessFault cpu.pc cpu.pc
    | Except.ok instr_word => exec cpu instr_word

/-- A running core at PC 0x40 over an all-zero CSR bank, for the C6 witness. -/
def fetch_fault_core : CpuCore :=
  CpuCore.mk (Status.mk (fun _ => 0) none (fun _ => 0) PrivilegeMode.Machine)
    0x40 CpuState.Running

-- ===========================================================================
-- Theorems
-- ===========================================================================

-- ===========================================================================
-- Bit-level helper lemmas
-- ===========================================================================

theorem testBit_of_and_one_shift {m k : Nat} :
    ((m &&& (1 <<< k)) ≠ 0) ↔ m.testBit k := by
  rw [Nat.one_shiftLeft, Nat.and_two_pow]
  cases h : m.testBit k <;> simp [h, Nat.pos_iff_ne_zero.symm, Nat.pos_pow_of_pos]

theorem read_mie_eq_testBit (m : Nat) : mstatus.read_mie m = m.testBit 3 := by
  have h := @testBit_of_and_one_shift m 3
  unfold mstatus.read_mie mstatus.MIE_MASK mstatus.MIE
  cases hb : m.testBit 3
  · rw [hb] at h
    simp only [Bool.false_eq_true, iff_false, not_not] at h
    norm_num [Nat.one_shiftLeft] at h
    simp [h]
  · rw [hb] at h
    simp only [iff_true] at h
    norm_num [Nat.one_shiftLeft] at h
    simp [h]

theorem read_mpie_eq_testBit (m : Nat) : mstatus.read_mpie m = m.testBit 7 := by
  have h := @testBit_of_and_one_shift m 7
  unfold mstatus.read_mpie mstatus.MPIE_MASK mstatus.MPIE
  cases hb : m.testBit 7
  · rw [hb] at h
    simp only [Bool.false_eq_true, iff_false, not_not] at h
    norm_num [Nat.one_shiftLeft] at h
    simp [h]
  · rw [hb] at h
    simp only [iff_true] at h
    norm_num [Nat.one_shiftLeft] at h
    simp [h]

theorem not32_testBit (m i : Nat) :
    (not32 m).testBit i = (decide (i < 32) ^^ m.testBit i) := by
  unfold not32 u32Max
  rw [Nat.testBit_xor]
  congr 1
  rw [show (0xFFFFFFFF : Nat) = 2 ^ 32 - 1 by norm_num, Nat.testBit_two_pow_sub_one]

theorem testBit_three_ge (j : Nat) (hj : 2 ≤ j) : Nat.testBit 3 j = false := by
  apply Nat.testBit_lt_two_pow
  calc (3 : Nat) < 2 ^ 2 := by norm_num
  _ ≤ 2 ^ j := Nat.pow_le_pow_right (by norm_num) hj

theorem read_mpp_write_mpp (m p : Nat) :
    mstatus.read_mpp (mstatus.write_mpp m p) = p &&& 3 := by
  unfold mstatus.read_mpp mstatus.write_mpp mstatus.MPP_MASK mstatus.MPP
  apply Nat.eq_of_testBit_eq
  intro i
  match i with
  | 0 =>
    simp [Nat.testBit_and, Nat.testBit_shiftRight, Nat.testBit_or,
      Nat.testBit_shiftLeft, not32_testBit,
      show Nat.testBit 6144 11 = true by decide,
      show Nat.testBit 3 0 = true by decide]
  | 1 =>
    simp [Nat.testBit_and, Nat.testBit_shiftRight, Nat.testBit_or,
      Nat.testBit_shiftLeft, not32_testBit,
      show Nat.testBit 6144 12 = true by decide,
      show Nat.testBit 3 1 = true by decide]
  | (j + 2) =>
    simp [Nat.testBit_and, Nat.testBit_shiftRight, Nat.testBit_or,
      Nat.testBit_shiftLeft, not32_testBit, testBit_three_ge (j + 2) (by omega)]

theorem testBit_write_mpp_low (x p i : Nat) (h1 : i < 11) :
    (mstatus.write_mpp x p).testBit i = x.testBit i := by
  unfold mstatus.write_mpp mstatus.MPP_MASK mstatus.MPP
  have h2 : ¬ (11 ≤ i) := by omega
  have h3 : i < 32 := by omega
  have h4 : Nat.testBit 6144 i = false := by
    rw [show (6144 : Nat) = 3 <<< 11 from rfl, Nat.testBit_shiftLeft]
    simp [h2]
  simp [Nat.testBit_or, Nat.testBit_and, Nat.testBit_shiftLeft, not32_testBit, h2, h3, h4]

theorem trap_mstatus_spec (m p : Nat) :
    mstatus.read_mpie
        (mstatus.write_mpp
          ((if mstatus.read_mie m then m ||| mstatus.MPIE_MASK
            else m &&& not32 mstatus.MPIE_MASK) &&& not32 mstatus.MIE_MASK) p) =
      mstatus.read_mie m ∧
    mstatus.read_mie
        (mstatus.write_mpp
          ((if mstatus.read_mie m then m ||| mstatus.MPIE_MASK
            else m &&& not32 mstatus.MPIE_MASK) &&& not32 mstatus.MIE_MASK) p) =
      false ∧
    mstatus.read_mpp
        (mstatus.write_mpp
          ((if mstatus.read_mie m then m ||| mstatus.MPIE_MASK
            else m &&& not32 mstatus.MPIE_MASK) &&& not32 mstatus.MIE_MASK) p) =
      p &&& 3 := by
  refine ⟨?_, ?_, read_mpp_write_mpp _ _⟩
  · rw [read_mpie_eq_testBit, testBit_write_mpp_low _ _ _ (by omega)]
    unfold mstatus.MIE_MASK mstatus.MIE mstatus.MPIE_MASK mstatus.MPIE
    cases hmie : mstatus.read_mie m <;>
      simp [Nat.testBit_and, Nat.testBit_or, Nat.testBit_shiftLeft, not32_testBit,
        show Nat.testBit 128 7 = true by decide,
        show Nat.testBit 8 7 = false by decide]
  · rw [read_mie_eq_testBit, testBit_write_mpp_low _ _ _ (by omega)]
    unfold mstatus.MIE_MASK mstatus.MIE mstatus.MPIE_MASK mstatus.MPIE
    cases hmie : mstatus.read_mie m <;>
      simp [Nat.testBit_and, Nat.testBit_or, Nat.testBit_shiftLeft, not32_testBit,
        show Nat.testBit 8 3 = true by decide]

theorem TvecMode_from_bits_eq (b : Nat) :
    TvecMode.from_bits b = if b &&& 3 = 1 then TvecMode.Vectored else TvecMode.Direct := by
  unfold TvecMode.from_bits
  have h : b &&& 3 < 4 := lt_of_le_of_lt Nat.and_le_right (by norm_num)
  set k := b &&& 3 with hk
  interval_cases k <;> rfl

theorem to_bits_and_three (pm : PrivilegeMode) : pm.to_bits &&& 3 = pm.to_bits := by
  cases pm <;> rfl

/-- Claim C1: a trap taken through `take_trap_at` writes `epc` to mepc, the
cause value (interrupt bit 31 plus the code) to mcause and `tval` to mtval;
in mstatus, MPIE becomes the pre-trap MIE, MIE becomes 0 and MPP the 2-bit
encoding of the pre-trap privilege; the privilege becomes Machine and the PC
becomes the trap PC from mtvec (base = mtvec with the low 2 bits cleared;
Vectored mode adds 4 times the code for interrupts only). -/
theorem C1_take_trap_at_contract (cpu : CpuCore) (cause : TrapCause) (tval epc : Nat) :
    (cpu.take_trap_at cause tval epc).csr_read CSR_MEPC = epc ∧
    (cpu.take_trap_at cause tval epc).csr_read CSR_MCAUSE =
      (if cause.is_interrupt then 2 ^ 31 + cause.code else cause.code) ∧
    (cpu.take_trap_at cause tval epc).csr_read CSR_MTVAL = tval ∧
    mstatus.read_mpie ((cpu.take_trap_at cause tval epc).csr_read CSR_MSTATUS) =
      mstatus.read_mie (cpu.csr_read CSR_MSTATUS) ∧
    mstatus.read_mie ((cpu.take_trap_at cause tval epc).csr_read CSR_MSTATUS) = false ∧
    mstatus.read_mpp ((cpu.take_trap_at cause tval epc).csr_read CSR_MSTATUS) =
      cpu.privilege.to_bits ∧
    (cpu.take_trap_at cause tval epc).privilege = PrivilegeMode.Machine ∧
    (cpu.take_trap_at cause tval epc).pc =
      (if (cpu.csr_read CSR_MTVEC) &&& 3 = 1 then
         (if cause.is_interrupt then
            (((cpu.csr_read CSR_MTVEC) &&& not32 3) + 4 * cause.code) % 2 ^ 32
          else (cpu.csr_read CSR_MTVEC) &&& not32 3)
       else (cpu.csr_read CSR_MTVEC) &&& not32 3) := by
  unfold CpuCore.take_trap_at
  simp only [CpuCore.csr_write, CpuCore.csr_read, CpuCore.set_pc, CpuCore.set_privilege,
    CpuCore.privilege, Status.csr_write, Status.csr_read,
    CSR_MEPC, CSR_MCAUSE, CSR_MTVAL, CSR_MSTATUS, CSR_MTVEC]
  norm_num
  repeat' apply And.intro
  all_goals first
    | (cases cause <;> decide)
    | exact (trap_mstatus_spec _ _).1
    | exact (trap_mstatus_spec _ _).2.1
    | rw [(trap_mstatus_spec _ _).2.2, to_bits_and_three]
    | (unfold calculate_trap_pc parse_tvec
       rw [TvecMode_from_bits_eq]
       by_cases hv : (cpu.status.csr 773) &&& 3 = 1 <;> cases hi : cause.is_interrupt <;>
         simp [hv, hi])

theorem read_mie_or_mpie (x : Nat) :
    mstatus.read_mie (x ||| mstatus.MPIE_MASK) = mstatus.read_mie x := by
  rw [read_mie_eq_testBit, read_mie_eq_testBit]
  unfold mstatus.MPIE_MASK mstatus.MPIE
  simp [Nat.testBit_or, show Nat.testBit 128 3 = false by decide]

theorem read_mpie_or_mpie (x : Nat) :
    mstatus.read_mpie (x ||| mstatus.MPIE_MASK) = true := by
  rw [read_mpie_eq_testBit]
  unfold mstatus.MPIE_MASK mstatus.MPIE
  simp [Nat.testBit_or, show Nat.testBit 128 7 = true by decide]

theorem read_mpp_or_mpie (x : Nat) :
    mstatus.read_mpp (x ||| mstatus.MPIE_MASK) = mstatus.read_mpp x := by
  unfold mstatus.read_mpp mstatus.MPIE_MASK mstatus.MPIE mstatus.MPP
  apply Nat.eq_of_testBit_eq
  intro i
  have h : Nat.testBit 128 (11 + i) = false := by
    rw [show (128 : Nat) = 2 ^ 7 by norm_num, Nat.testBit_two_pow]
    simp
    omega
  simp [Nat.testBit_and, Nat.testBit_shiftRight, Nat.testBit_or, h]

theorem mret_mstatus_spec (m : Nat) :
    mstatus.read_mie
        ((mstatus.write_mpp
            (if mstatus.read_mpie m then m ||| mstatus.MIE_MASK
             else m &&& not32 mstatus.MIE_MASK) 0) ||| mstatus.MPIE_MASK) =
      mstatus.read_mpie m ∧
    mstatus.read_mpie
        ((mstatus.write_mpp
            (if mstatus.read_mpie m then m ||| mstatus.MIE_MASK
             else m &&& not32 mstatus.MIE_MASK) 0) ||| mstatus.MPIE_MASK) = true ∧
    mstatus.read_mpp
        ((mstatus.write_mpp
            (if mstatus.read_mpie m then m ||| mstatus.MIE_MASK
             else m &&& not32 mstatus.MIE_MASK) 0) ||| mstatus.MPIE_MASK) = 0 := by
  refine ⟨?_, read_mpie_or_mpie _, ?_⟩
  · rw [read_mie_or_mpie, read_mie_eq_testBit, testBit_write_mpp_low _ _ _ (by omega)]
    unfold mstatus.MIE_MASK mstatus.MIE
    cases hmpie : mstatus.read_mpie m <;>
      simp [Nat.testBit_and, Nat.testBit_or, Nat.testBit_shiftLeft, not32_testBit,
        show Nat.testBit 8 3 = true by decide]
  · rw [read_mpp_or_mpie, read_mpp_write_mpp]
    rfl

/-- Claim C2: after `execute_mret`, mstatus.MIE equals the pre-MRET MPIE,
MPIE is 1, MPP is 0 (User); the privilege becomes the mode encoded by the
pre-MRET MPP field, and the PC becomes the pre-MRET mepc. -/
theorem C2_mret_contract (cpu : CpuCore) :
    mstatus.read_mie ((execute_mret cpu).csr_read CSR_MSTATUS) =
      mstatus.read_mpie (cpu.csr_read CSR_MSTATUS) ∧
    mstatus.read_mpie ((execute_mret cpu).csr_read CSR_MSTATUS) = true ∧
    mstatus.read_mpp ((execute_mret cpu).csr_read CSR_MSTATUS) = 0 ∧
    (execute_mret cpu).privilege =
      PrivilegeMode.from_bits (mstatus.read_mpp (cpu.csr_read CSR_MSTATUS)) ∧
    (execute_mret cpu).pc = cpu.csr_read CSR_MEPC := by
  unfold execute_mret
  simp only [CpuCore.csr_write, CpuCore.csr_read, CpuCore.set_pc, CpuCore.set_privilege,
    CpuCore.privilege, Status.csr_write, Status.csr_read, CSR_MSTATUS, CSR_MEPC]
  norm_num
  repeat' apply And.intro
  all_goals first
    | exact (mret_mstatus_spec _).1
    | exact (mret_mstatus_spec _).2.1
    | exact (mret_mstatus_spec _).2.2

/-- Claim C3 counterexample: the tohost value 2 is non-zero and even, so the
claim classifies it Timeout, but `from_tohost` classifies every non-zero
value other than 1 as Fail — here Fail with test number 1. -/
theorem C3_counterexample :
    TestResult.from_tohost 2 = TestResult.Fail 1 ∧
    TestResult.from_tohost 2 ≠ TestResult.Timeout := by
  constructor <;> decide

/-- Claim C3 (amended): for every non-zero tohost value, 1 is classified
Pass and every other value — odd or even — is classified Fail with test
number value >> 1 (= value / 2); no non-zero value yields Timeout. -/
theorem C3_from_tohost_amended (v : Nat) (hv : v ≠ 0) :
    TestResult.from_tohost v =
      (if v = 1 then TestResult.Pass else TestResult.Fail (v / 2)) := by
  unfold TestResult.from_tohost
  have hs : v >>> 1 = v / 2 := by
    rw [Nat.shiftRight_eq_div_pow]
  by_cases h1 : v = 1 <;> simp [h1, hv, hs]

/-- Witness for C3: the amended classification evaluated at tohost = 6. -/
theorem C3_from_tohost_amended_witness :
    TestResult.from_tohost 6 =
      (if 6 = 1 then TestResult.Pass else TestResult.Fail (6 / 2)) :=
  C3_from_tohost_amended 6 (by decide)

/-- Claim C10: when no tohost symbol was found (`tohost_addr` is `none`),
`run_isa_test` reports Timeout for every possible behavior of the CPU, the
memory and the step/run operations — it can never report Pass or Fail. -/
theorem C10_no_tohost_timeout {σ : Type} (ops : SimOps σ) (env : SimEnvSt σ)
    (max_instructions : Nat) (h : env.tohost_addr = none) :
    (run_isa_test ops env max_instructions).1 = TestResult.Timeout := by
  unfold run_isa_test
  rw [h]

/-- Witness for C10: a concrete environment without a tohost address, under
operations that always report a non-zero tohost-like value, still yields
Timeout. -/
theorem C10_no_tohost_timeout_witness :
    (run_isa_test
        { run := fun n e => (n, CpuState.Running, e)
          step := fun e => (CpuState.Running, e)
          check_tohost := fun e => (some 1, e)
          clear_htif_mailboxes := fun e => e }
        { tohost_addr := none, fromhost_addr := none,
          instructions_executed := 0, rest := () }
        5).1 = TestResult.Timeout :=
  C10_no_tohost_timeout _ _ 5 rfl

/-- Claim C8 counterexample: in the freshly created registry every opcode
bucket is empty, yet a wildcard decoder whose `allow_opcode_overlap` is
false is rejected — the claim says a wildcard always registers into an
empty registry. -/
theorem C8_counterexample :
    ((List.range 128).all
        (fun op => (DecoderRegistry.new.opcode_map op).isEmpty)) = true ∧
    (DecoderRegistry.new.register ⟨"wildcard", none, false⟩).isOk = false := by
  constructor
  · rfl
  · rfl

/-- Claim C8 (amended): registering a wildcard decoder d succeeds iff every
decoder present in some opcode bucket allows overlap AND d itself allows
overlap.  (Empty buckets alone do not suffice: a wildcard that forbids
overlap is rejected even by an empty registry.) -/
theorem C8_wildcard_register_amended (r : DecoderRegistry) (d : DecoderSig)
    (hw : d.handled_opcodes = none) :
    (r.register d).isOk = true ↔
      ((∀ op, op < 128 → ∀ i ∈ r.opcode_map op,
          (r.decoders.getD i defaultDecoderSig).allow_opcode_overlap = true) ∧
        d.allow_opcode_overlap = true) := by
  unfold DecoderRegistry.register
  rw [hw]
  by_cases hb : (List.range 128).any (fun op =>
      (r.opcode_map op).any
        (fun i => !(r.decoders.getD i defaultDecoderSig).allow_opcode_overlap)) = true
  · simp only [hb]
    constructor
    · intro h
      simp [Except.isOk, Except.toBool] at h
    · rintro ⟨hall, _⟩
      exfalso
      simp only [List.any_eq_true, List.mem_range] at hb
      obtain ⟨op, hop, i, hi, hblock⟩ := hb
      have h2 := hall op hop i hi
      simp only [List.getD, List.get?_eq_getElem?] at h2
      simp [h2] at hblock
  · simp only [hb]
    cases hd : d.allow_opcode_overlap
    · simp only [Bool.not_false, Bool.false_or, Bool.not_true]
      constructor
      · intro h
        simp [Except.isOk, Except.toBool] at h
      · rintro ⟨_, habs⟩
        cases habs
    · simp only [Bool.not_true, Bool.or_false]
      constructor
      · intro _
        refine ⟨?_, trivial⟩
        intro op hop i hi
        by_contra hno
        apply hb
        simp only [List.any_eq_true, List.mem_range]
        refine ⟨op, hop, i, hi, ?_⟩
        simp only [List.getD, List.get?_eq_getElem?] at hno
        simp [Bool.eq_false_iff.mpr hno]
      · intro _
        trivial

/-- Witness for C8: a wildcard decoder that allows overlap registers into
the empty registry (both sides of the amended equivalence hold there). -/
theorem C8_wildcard_register_amended_witness :
    ((DecoderRegistry.new.register ⟨"wildcard", none, true⟩).isOk = true ↔
      ((∀ op, op < 128 → ∀ i ∈ DecoderRegistry.new.opcode_map op,
          (DecoderRegistry.new.decoders.getD i defaultDecoderSig).allow_opcode_overlap
            = true) ∧
        (true : Bool) = true)) :=
  C8_wildcard_register_amended DecoderRegistry.new ⟨"wildcard", none, true⟩ rfl

/-- Claim C5: under the table invariant (a match value has no bits outside
its mask), the conflict predicate is exact: it returns true iff some 32-bit
word matches both entries. -/
theorem maskBit_or_left : ∀ (a b k1 k2 : Bool), a = (a && k1) → b = (b && k2) →
    ((a && (k1 && k2)) = (b && (k1 && k2))) → ((a || b) && k1) = a := by decide

theorem maskBit_or_right : ∀ (a b k1 k2 : Bool), a = (a && k1) → b = (b && k2) →
    ((a && (k1 && k2)) = (b && (k1 && k2))) → ((a || b) && k2) = b := by decide

theorem maskBit_common : ∀ (w k1 k2 : Bool),
    ((w && k1) && (k1 && k2)) = ((w && k2) && (k1 && k2)) := by decide

/-- Claim C5: under the table invariant (a match value has no bits outside
its mask), the conflict predicate is exact: it returns true iff some 32-bit
word matches both entries. -/
theorem C5_conflicts_with_iff (e1 e2 : InstrDef)
    (hm1 : e1.mask < 2 ^ 32) (hm2 : e2.mask < 2 ^ 32)
    (hinv1 : e1.match_val = e1.match_val &&& e1.mask)
    (hinv2 : e2.match_val = e2.match_val &&& e2.mask) :
    e1.conflicts_with e2 = true ↔
      ∃ w, w < 2 ^ 32 ∧ (w &&& e1.mask) = e1.match_val ∧
        (w &&& e2.mask) = e2.match_val := by
  unfold InstrDef.conflicts_with
  simp only [beq_iff_eq]
  have hinv1' : ∀ i, e1.match_val.testBit i = (e1.match_val.testBit i && e1.mask.testBit i) := by
    intro i
    conv_lhs => rw [hinv1]
    simp [Nat.testBit_and]
  have hinv2' : ∀ i, e2.match_val.testBit i = (e2.match_val.testBit i && e2.mask.testBit i) := by
    intro i
    conv_lhs => rw [hinv2]
    simp [Nat.testBit_and]
  constructor
  · intro hC
    have hC' : ∀ i, (e1.match_val.testBit i && (e1.mask.testBit i && e2.mask.testBit i)) =
        (e2.match_val.testBit i && (e1.mask.testBit i && e2.mask.testBit i)) := by
      intro i
      have := congrArg (fun x => x.testBit i) hC
      simpa [Nat.testBit_and] using this
    refine ⟨e1.match_val ||| e2.match_val, ?_, ?_, ?_⟩
    · apply Nat.or_lt_two_pow
      · calc e1.match_val = e1.match_val &&& e1.mask := hinv1
        _ ≤ e1.mask := Nat.and_le_right
        _ < 2 ^ 32 := hm1
      · calc e2.match_val = e2.match_val &&& e2.mask := hinv2
        _ ≤ e2.mask := Nat.and_le_right
        _ < 2 ^ 32 := hm2
    · apply Nat.eq_of_testBit_eq
      intro i
      simp only [Nat.testBit_and, Nat.testBit_or]
      exact maskBit_or_left _ _ _ _ (hinv1' i) (hinv2' i) (hC' i)
    · apply Nat.eq_of_testBit_eq
      intro i
      simp only [Nat.testBit_and, Nat.testBit_or]
      exact maskBit_or_right _ _ _ _ (hinv1' i) (hinv2' i) (hC' i)
  · rintro ⟨w, -, hw1, hw2⟩
    apply Nat.eq_of_testBit_eq
    intro i
    have h1 := congrArg (fun x => x.testBit i) hw1
    have h2 := congrArg (fun x => x.testBit i) hw2
    simp only [Nat.testBit_and] at h1 h2 ⊢
    rw [← h1, ← h2]
    exact maskBit_common _ _ _

/-- Witness for C5: two I-type entries sharing mask and match over the OP
opcode conflict, and the equivalence instantiates at them. -/
theorem C5_conflicts_with_iff_witness :
    (InstrDef.mk "T1" 0x707F 0x33).conflicts_with (InstrDef.mk "T2" 0xFE00707F 0x33)
        = true ↔
      ∃ w, w < 2 ^ 32 ∧
        (w &&& (InstrDef.mk "T1" 0x707F 0x33).mask) =
          (InstrDef.mk "T1" 0x707F 0x33).match_val ∧
        (w &&& (InstrDef.mk "T2" 0xFE00707F 0x33).mask) =
          (InstrDef.mk "T2" 0xFE00707F 0x33).match_val :=
  C5_conflicts_with_iff _ _ (by norm_num) (by norm_num) (by decide) (by decide)

-- ===========================================================================
-- Two's-complement cast lemmas (for the M-extension executor)
-- ===========================================================================

theorem toSigned_bounds (x : Nat) (h : x < 2 ^ 32) :
    -(2 ^ 31) ≤ toSigned x ∧ toSigned x < 2 ^ 31 := by
  unfold toSigned
  split <;> omega

theorem toSigned_eq_zero_iff (x : Nat) (h : x < 2 ^ 32) :
    toSigned x = 0 ↔ x = 0 := by
  unfold toSigned
  split <;> omega

theorem toSigned_eq_intMin_iff (x : Nat) (h : x < 2 ^ 32) :
    toSigned x = -(2 ^ 31) ↔ x = 2 ^ 31 := by
  unfold toSigned
  split <;> omega

theorem toSigned_eq_negOne_iff (x : Nat) (h : x < 2 ^ 32) :
    toSigned x = -1 ↔ x = 2 ^ 32 - 1 := by
  unfold toSigned
  split <;> omega

theorem toU32_toSigned (x : Nat) (h : x < 2 ^ 32) : toU32 (toSigned x) = x := by
  unfold toU32 toSigned
  split <;> omega

theorem toU32_lt (i : Int) : toU32 i < 2 ^ 32 := by
  unfold toU32
  omega

theorem toSigned_toU32 (i : Int) (h1 : -(2 ^ 31) ≤ i) (h2 : i < 2 ^ 31) :
    toSigned (toU32 i) = i := by
  unfold toSigned toU32
  split <;> omega

theorem natAbs_tmod (a b : Int) : (a.tmod b).natAbs = a.natAbs % b.natAbs := by
  cases a <;> cases b <;>
    simp only [Int.tmod, Int.natAbs_neg, Int.natAbs_ofNat, Int.natAbs_negSucc] <;> rfl

theorem tdiv_range (a b : Int) (ha1 : -(2 ^ 31) ≤ a) (ha2 : a < 2 ^ 31)
    (hb0 : b ≠ 0) (hx : ¬(a = -(2 ^ 31) ∧ b = -1)) :
    -(2 ^ 31) ≤ a.tdiv b ∧ a.tdiv b < 2 ^ 31 := by
  have habs : (a.tdiv b).natAbs = a.natAbs / b.natAbs := Int.natAbs_tdiv a b
  have haA : a.natAbs ≤ 2 ^ 31 := by omega
  have hbA : 1 ≤ b.natAbs := by omega
  have hq := Int.natAbs_eq (a.tdiv b)
  have hqle : (a.tdiv b).natAbs ≤ 2 ^ 31 := by
    rw [habs]
    calc a.natAbs / b.natAbs ≤ a.natAbs := Nat.div_le_self _ _
    _ ≤ 2 ^ 31 := haA
  rcases Nat.lt_or_ge (a.tdiv b).natAbs (2 ^ 31) with hlt | hge
  · omega
  · have heq : (a.tdiv b).natAbs = 2 ^ 31 := by omega
    have hb1 : b.natAbs = 1 := by
      by_contra hb2
      have hb2' : 2 ≤ b.natAbs := by omega
      have : a.natAbs / b.natAbs ≤ a.natAbs / 2 := Nat.div_le_div_left hb2' (by omega)
      have : a.natAbs / 2 ≤ 2 ^ 30 := by omega
      omega
    have haeq : a.natAbs = 2 ^ 31 := by
      rw [habs, hb1, Nat.div_one] at heq
      exact heq
    have haMin : a = -(2 ^ 31) := by omega
    have hbpm : b = 1 ∨ b = -1 := by omega
    rcases hbpm with rfl | rfl
    · simp [haMin]
    · exact absurd ⟨haMin, rfl⟩ hx

theorem tmod_range (a b : Int) (_ha1 : -(2 ^ 31) ≤ a) (_ha2 : a < 2 ^ 31)
    (hb1 : -(2 ^ 31) ≤ b) (hb2 : b < 2 ^ 31) (hb0 : b ≠ 0) :
    -(2 ^ 31) ≤ a.tmod b ∧ a.tmod b < 2 ^ 31 := by
  have habs : (a.tmod b).natAbs = a.natAbs % b.natAbs := natAbs_tmod a b
  have hbA : 1 ≤ b.natAbs := by omega
  have hmlt : a.natAbs % b.natAbs < b.natAbs := Nat.mod_lt _ (by omega)
  have hbA2 : b.natAbs ≤ 2 ^ 31 := by omega
  have hq := Int.natAbs_eq (a.tmod b)
  omega

theorem read_reg_write_reg (cpu : CpuCore) (rd v : Nat) (h : rd ≠ 0) :
    (cpu.write_reg rd v).read_reg rd = v := by
  simp [CpuCore.write_reg, CpuCore.read_reg, Status.int_write, Status.int_read, h]

theorem toU32_negOne : toU32 (-1) = 2 ^ 32 - 1 := by decide

/-- Claim C4: DIV/DIVU/REM/REMU semantics of the M executor.  DIV computes
the truncated signed quotient (via the two's-complement reading of the
operand bits), returning all-ones on division by zero and the dividend on
INT_MIN / -1; DIVU the unsigned quotient with UINT_MAX on zero; REM the
signed remainder with the dividend on zero and 0 on overflow; REMU the
unsigned remainder with the dividend on zero. -/
theorem C4_divrem_contract (cpu : CpuCore) (rd rs1 rs2 : Nat) (hrd : rd ≠ 0)
    (ha : cpu.read_reg rs1 < 2 ^ 32) (hb : cpu.read_reg rs2 < 2 ^ 32) :
    (cpu.read_reg rs2 = 0 →
      (rv32m_execute cpu (RvInstr.Div rd rs1 rs2)).map (fun c => c.read_reg rd) =
        some (2 ^ 32 - 1)) ∧
    (toSigned (cpu.read_reg rs1) = -(2 ^ 31) → toSigned (cpu.read_reg rs2) = -1 →
      (rv32m_execute cpu (RvInstr.Div rd rs1 rs2)).map (fun c => c.read_reg rd) =
        some (cpu.read_reg rs1)) ∧
    (cpu.read_reg rs2 ≠ 0 →
      ¬(toSigned (cpu.read_reg rs1) = -(2 ^ 31) ∧ toSigned (cpu.read_reg rs2) = -1) →
      ∃ r, (rv32m_execute cpu (RvInstr.Div rd rs1 rs2)).map (fun c => c.read_reg rd) =
          some r ∧ r < 2 ^ 32 ∧
        toSigned r = (toSigned (cpu.read_reg rs1)).tdiv (toSigned (cpu.read_reg rs2))) ∧
    (cpu.read_reg rs2 = 0 →
      (rv32m_execute cpu (RvInstr.Divu rd rs1 rs2)).map (fun c => c.read_reg rd) =
        some (2 ^ 32 - 1)) ∧
    (cpu.read_reg rs2 ≠ 0 →
      (rv32m_execute cpu (RvInstr.Divu rd rs1 rs2)).map (fun c => c.read_reg rd) =
        some (cpu.read_reg rs1 / cpu.read_reg rs2)) ∧
    (cpu.read_reg rs2 = 0 →
      (rv32m_execute cpu (RvInstr.Rem rd rs1 rs2)).map (fun c => c.read_reg rd) =
        some (cpu.read_reg rs1)) ∧
    (toSigned (cpu.read_reg rs1) = -(2 ^ 31) → toSigned (cpu.read_reg rs2) = -1 →
      (rv32m_execute cpu (RvInstr.Rem rd rs1 rs2)).map (fun c => c.read_reg rd) =
        some 0) ∧
    (cpu.read_reg rs2 ≠ 0 →
      ¬(toSigned (cpu.read_reg rs1) = -(2 ^ 31) ∧ toSigned (cpu.read_reg rs2) = -1) →
      ∃ r, (rv32m_execute cpu (RvInstr.Rem rd rs1 rs2)).map (fun c => c.read_reg rd) =
          some r ∧ r < 2 ^ 32 ∧
        toSigned r = (toSigned (cpu.read_reg rs1)).tmod (toSigned (cpu.read_reg rs2))) ∧
    (cpu.read_reg rs2 = 0 →
      (rv32m_execute cpu (RvInstr.Remu rd rs1 rs2)).map (fun c => c.read_reg rd) =
        some (cpu.read_reg rs1)) ∧
    (cpu.read_reg rs2 ≠ 0 →
      (rv32m_execute cpu (RvInstr.Remu rd rs1 rs2)).map (fun c => c.read_reg rd) =
        some (cpu.read_reg rs1 % cpu.read_reg rs2)) := by
  have hsz := toSigned_eq_zero_iff (cpu.read_reg rs2) hb
  have hsa := toSigned_bounds (cpu.read_reg rs1) ha
  have hsb := toSigned_bounds (cpu.read_reg rs2) hb
  refine ⟨?_, ?_, ?_, ?_, ?_, ?_, ?_, ?_, ?_, ?_⟩
  · intro hz
    have : toSigned (cpu.read_reg rs2) = 0 := hsz.mpr hz
    simp [rv32m_execute, this, read_reg_write_reg _ _ _ hrd, toU32_negOne]
  · intro hmin hneg
    have hz : toSigned (cpu.read_reg rs2) ≠ 0 := by rw [hneg]; decide
    simp [rv32m_execute, read_reg_write_reg _ _ _ hrd]
    rw [if_neg hz, if_pos ⟨hmin, hneg⟩, toU32_toSigned _ ha]
  · intro hz hx
    have hz' : toSigned (cpu.read_reg rs2) ≠ 0 := fun h => hz (hsz.mp h)
    have hq := tdiv_range (toSigned (cpu.read_reg rs1)) (toSigned (cpu.read_reg rs2))
      hsa.1 hsa.2 hz' hx
    refine ⟨toU32 ((toSigned (cpu.read_reg rs1)).tdiv (toSigned (cpu.read_reg rs2))),
      ?_, toU32_lt _, toSigned_toU32 _ hq.1 hq.2⟩
    simp [rv32m_execute, read_reg_write_reg _ _ _ hrd]
    rw [show (-(2 : Int) ^ 31) = -2147483648 by norm_num] at hx
    rw [if_neg hz', if_neg hx]
  · intro hz
    simp [rv32m_execute, hz, read_reg_write_reg _ _ _ hrd, u32Max]
  · intro hz
    simp [rv32m_execute, hz, read_reg_write_reg _ _ _ hrd]
  · intro hz
    have : toSigned (cpu.read_reg rs2) = 0 := hsz.mpr hz
    simp [rv32m_execute, this, read_reg_write_reg _ _ _ hrd, toU32_toSigned _ ha]
  · intro hmin hneg
    have hz : toSigned (cpu.read_reg rs2) ≠ 0 := by rw [hneg]; decide
    simp [rv32m_execute, read_reg_write_reg _ _ _ hrd]
    rw [if_neg hz, if_pos ⟨hmin, hneg⟩]
  · intro hz hx
    have hz' : toSigned (cpu.read_reg rs2) ≠ 0 := fun h => hz (hsz.mp h)
    have hr := tmod_range (toSigned (cpu.read_reg rs1)) (toSigned (cpu.read_reg rs2))
      hsa.1 hsa.2 hsb.1 hsb.2 hz'
    refine ⟨toU32 ((toSigned (cpu.read_reg rs1)).tmod (toSigned (cpu.read_reg rs2))),
      ?_, toU32_lt _, toSigned_toU32 _ hr.1 hr.2⟩
    simp [rv32m_execute, read_reg_write_reg _ _ _ hrd]
    rw [show (-(2 : Int) ^ 31) = -2147483648 by norm_num] at hx
    rw [if_neg hz', if_neg hx]
  · intro hz
    simp [rv32m_execute, hz, read_reg_write_reg _ _ _ hrd]
  · intro hz
    simp [rv32m_execute, hz, read_reg_write_reg _ _ _ hrd]

/-- Witness for C4: the contract instantiated on a register file holding
17 in x1 and 5 in x2, dividing into x3. -/
theorem C4_divrem_contract_witness :
    ((CpuCore.mk ⟨fun r => if r = 1 then 17 else if r = 2 then 5 else 0,
        none, fun _ => 0, PrivilegeMode.Machine⟩ 0 CpuState.Running).read_reg 2 ≠ 0) ∧
    ∃ r, (rv32m_execute
        (CpuCore.mk ⟨fun r => if r = 1 then 17 else if r = 2 then 5 else 0,
          none, fun _ => 0, PrivilegeMode.Machine⟩ 0 CpuState.Running)
        (RvInstr.Divu 3 1 2)).map (fun c => c.read_reg 3) = some r ∧ r = 3 := by
  have h := C4_divrem_contract
    (CpuCore.mk ⟨fun r => if r = 1 then 17 else if r = 2 then 5 else 0,
      none, fun _ => 0, PrivilegeMode.Machine⟩ 0 CpuState.Running)
    3 1 2 (by decide) (by norm_num [CpuCore.read_reg, Status.int_read])
    (by norm_num [CpuCore.read_reg, Status.int_read])
  refine ⟨by norm_num [CpuCore.read_reg, Status.int_read], 3, ?_, rfl⟩
  have h5 := h.2.2.2.2.1 (by norm_num [CpuCore.read_reg, Status.int_read])
  simpa [CpuCore.read_reg, Status.int_read] using h5

theorem csr_read_csr_write (cpu : CpuCore) (a v : Nat) :
    (cpu.csr_write a v).csr_read a = v := by
  simp [CpuCore.csr_write, CpuCore.csr_read, Status.csr_write, Status.csr_read]

theorem zicsr_csrrw_spec (cpu : CpuCore) (rd rs1 csr : Nat) :
    ∃ s tr, zicsr_execute cpu (RvInstr.Csrrw rd rs1 csr) = some (s, tr) ∧
      (rd = 0 → tr.countP ZEvent.isCsrRead = 0 ∧ tr.countP ZEvent.isRegWrite = 0) ∧
      (rd ≠ 0 → ∃ i j, i < j ∧
        tr.get? i = some (ZEvent.regWrite rd (cpu.csr_read csr)) ∧
        tr.get? j = some (ZEvent.csrWrite csr (cpu.read_reg rs1))) ∧
      s.csr_read csr = cpu.read_reg rs1 := by
  by_cases h : rd = 0
  · refine ⟨cpu.csr_write csr (cpu.read_reg rs1),
      [ZEvent.regRead rs1, ZEvent.csrWrite csr (cpu.read_reg rs1)],
      by simp [zicsr_execute, h], ?_, ?_, csr_read_csr_write _ _ _⟩
    · intro _
      simp [List.countP, List.countP.go, ZEvent.isCsrRead, ZEvent.isRegWrite]
    · intro hc
      exact absurd h hc
  · refine ⟨(cpu.write_reg rd (cpu.csr_read csr)).csr_write csr (cpu.read_reg rs1),
      [ZEvent.regRead rs1, ZEvent.csrRead csr,
        ZEvent.regWrite rd (cpu.csr_read csr), ZEvent.csrWrite csr (cpu.read_reg rs1)],
      by simp [zicsr_execute, h], ?_, ?_, csr_read_csr_write _ _ _⟩
    · intro hc
      exact absurd hc h
    · intro _
      exact ⟨2, 3, by norm_num, rfl, rfl⟩

theorem zicsr_csrrwi_spec (cpu : CpuCore) (rd zimm csr : Nat) :
    ∃ s tr, zicsr_execute cpu (RvInstr.Csrrwi rd zimm csr) = some (s, tr) ∧
      (rd = 0 → tr.countP ZEvent.isCsrRead = 0 ∧ tr.countP ZEvent.isRegWrite = 0) ∧
      (rd ≠ 0 → ∃ i j, i < j ∧
        tr.get? i = some (ZEvent.regWrite rd (cpu.csr_read csr)) ∧
        tr.get? j = some (ZEvent.csrWrite csr zimm)) ∧
      s.csr_read csr = zimm := by
  by_cases h : rd = 0
  · refine ⟨cpu.csr_write csr zimm, [ZEvent.csrWrite csr zimm],
      by simp [zicsr_execute, h], ?_, ?_, csr_read_csr_write _ _ _⟩
    · intro _
      simp [List.countP, List.countP.go, ZEvent.isCsrRead, ZEvent.isRegWrite]
    · intro hc
      exact absurd h hc
  · refine ⟨(cpu.write_reg rd (cpu.csr_read csr)).csr_write csr zimm,
      [ZEvent.csrRead csr, ZEvent.regWrite rd (cpu.csr_read csr),
        ZEvent.csrWrite csr zimm],
      by simp [zicsr_execute, h], ?_, ?_, csr_read_csr_write _ _ _⟩
    · intro hc
      exact absurd hc h
    · intro _
      exact ⟨1, 2, by norm_num, rfl, rfl⟩

theorem zicsr_csrrs_spec (cpu : CpuCore) (rd rs1 csr : Nat) :
    ∃ s tr, zicsr_execute cpu (RvInstr.Csrrs rd rs1 csr) = some (s, tr) ∧
      ZEvent.csrRead csr ∈ tr ∧
      ZEvent.regWrite rd (cpu.csr_read csr) ∈ tr ∧
      ((∃ a v, ZEvent.csrWrite a v ∈ tr) ↔ rs1 ≠ 0) ∧
      (rs1 ≠ 0 → s.csr_read csr =
        cpu.csr_read csr ||| (cpu.write_reg rd (cpu.csr_read csr)).read_reg rs1) ∧
      (rs1 = 0 → s = cpu.write_reg rd (cpu.csr_read csr)) := by
  by_cases h : rs1 = 0
  · refine ⟨cpu.write_reg rd (cpu.csr_read csr),
      [ZEvent.csrRead csr, ZEvent.regWrite rd (cpu.csr_read csr)],
      by simp [zicsr_execute, h], by simp, by simp, ?_, ?_, fun _ => rfl⟩
    · apply iff_of_false
      · rintro ⟨a, v, hmem⟩
        simp at hmem
      · simp [h]
    · intro hc
      exact absurd h hc
  · refine ⟨(cpu.write_reg rd (cpu.csr_read csr)).csr_write csr
        (cpu.csr_read csr ||| (cpu.write_reg rd (cpu.csr_read csr)).read_reg rs1),
      [ZEvent.csrRead csr, ZEvent.regWrite rd (cpu.csr_read csr), ZEvent.regRead rs1,
        ZEvent.csrWrite csr
          (cpu.csr_read csr ||| (cpu.write_reg rd (cpu.csr_read csr)).read_reg rs1)],
      by simp [zicsr_execute, h], by simp, by simp, ?_, ?_, ?_⟩
    · apply iff_of_true
      · exact ⟨csr, cpu.csr_read csr ||| (cpu.write_reg rd (cpu.csr_read csr)).read_reg rs1, by simp⟩
      · exact h
    · intro _
      exact csr_read_csr_write _ _ _
    · intro hc
      exact absurd hc h

theorem zicsr_csrrc_spec (cpu : CpuCore) (rd rs1 csr : Nat) :
    ∃ s tr, zicsr_execute cpu (RvInstr.Csrrc rd rs1 csr) = some (s, tr) ∧
      ZEvent.csrRead csr ∈ tr ∧
      ZEvent.regWrite rd (cpu.csr_read csr) ∈ tr ∧
      ((∃ a v, ZEvent.csrWrite a v ∈ tr) ↔ rs1 ≠ 0) ∧
      (rs1 ≠ 0 → s.csr_read csr =
        cpu.csr_read csr &&&
          not32 ((cpu.write_reg rd (cpu.csr_read csr)).read_reg rs1)) ∧
      (rs1 = 0 → s = cpu.write_reg rd (cpu.csr_read csr)) := by
  by_cases h : rs1 = 0
  · refine ⟨cpu.write_reg rd (cpu.csr_read csr),
      [ZEvent.csrRead csr, ZEvent.regWrite rd (cpu.csr_read csr)],
      by simp [zicsr_execute, h], by simp, by simp, ?_, ?_, fun _ => rfl⟩
    · apply iff_of_false
      · rintro ⟨a, v, hmem⟩
        simp at hmem
      · simp [h]
    · intro hc
      exact absurd h hc
  · refine ⟨(cpu.write_reg rd (cpu.csr_read csr)).csr_write csr
        (cpu.csr_read csr &&&
          not32 ((cpu.write_reg rd (cpu.csr_read csr)).read_reg rs1)),
      [ZEvent.csrRead csr, ZEvent.regWrite rd (cpu.csr_read csr), ZEvent.regRead rs1,
        ZEvent.csrWrite csr
          (cpu.csr_read csr &&&
            not32 ((cpu.write_reg rd (cpu.csr_read csr)).read_reg rs1))],
      by simp [zicsr_execute, h], by simp, by simp, ?_, ?_, ?_⟩
    · apply iff_of_true
      · exact ⟨csr, cpu.csr_read csr &&& not32 ((cpu.write_reg rd (cpu.csr_read csr)).read_reg rs1), by simp⟩
      · exact h
    · intro _
      exact csr_read_csr_write _ _ _
    · intro hc
      exact absurd hc h

theorem zicsr_csrrsi_spec (cpu : CpuCore) (rd zimm csr : Nat) :
    ∃ s tr, zicsr_execute cpu (RvInstr.Csrrsi rd zimm csr) = some (s, tr) ∧
      ZEvent.csrRead csr ∈ tr ∧
      ZEvent.regWrite rd (cpu.csr_read csr) ∈ tr ∧
      ((∃ a v, ZEvent.csrWrite a v ∈ tr) ↔ zimm ≠ 0) ∧
      (zimm ≠ 0 → s.csr_read csr = cpu.csr_read csr ||| zimm) ∧
      (zimm = 0 → s = cpu.write_reg rd (cpu.csr_read csr)) := by
  by_cases h : zimm = 0
  · refine ⟨cpu.write_reg rd (cpu.csr_read csr),
      [ZEvent.csrRead csr, ZEvent.regWrite rd (cpu.csr_read csr)],
      by simp [zicsr_execute, h], by simp, by simp, ?_, ?_, fun _ => rfl⟩
    · apply iff_of_false
      · rintro ⟨a, v, hmem⟩
        simp at hmem
      · simp [h]
    · intro hc
      exact absurd h hc
  · refine ⟨(cpu.write_reg rd (cpu.csr_read csr)).csr_write csr
        (cpu.csr_read csr ||| zimm),
      [ZEvent.csrRead csr, ZEvent.regWrite rd (cpu.csr_read csr),
        ZEvent.csrWrite csr (cpu.csr_read csr ||| zimm)],
      by simp [zicsr_execute, h], by simp, by simp, ?_, ?_, ?_⟩
    · apply iff_of_true
      · exact ⟨csr, cpu.csr_read csr ||| zimm, by simp⟩
      · exact h
    · intro _
      exact csr_read_csr_write _ _ _
    · intro hc
      exact absurd hc h

theorem zicsr_csrrci_spec (cpu : CpuCore) (rd zimm csr : Nat) :
    ∃ s tr, zicsr_execute cpu (RvInstr.Csrrci rd zimm csr) = some (s, tr) ∧
      ZEvent.csrRead csr ∈ tr ∧
      ZEvent.regWrite rd (cpu.csr_read csr) ∈ tr ∧
      ((∃ a v, ZEvent.csrWrite a v ∈ tr) ↔ zimm ≠ 0) ∧
      (zimm ≠ 0 → s.csr_read csr = cpu.csr_read csr &&& not32 zimm) ∧
      (zimm = 0 → s = cpu.write_reg rd (cpu.csr_read csr)) := by
  by_cases h : zimm = 0
  · refine ⟨cpu.write_reg rd (cpu.csr_read csr),
      [ZEvent.csrRead csr, ZEvent.regWrite rd (cpu.csr_read csr)],
      by simp [zicsr_execute, h], by simp, by simp, ?_, ?_, fun _ => rfl⟩
    · apply iff_of_false
      · rintro ⟨a, v, hmem⟩
        simp at hmem
      · simp [h]
    · intro hc
      exact absurd h hc
  · refine ⟨(cpu.write_reg rd (cpu.csr_read csr)).csr_write csr
        (cpu.csr_read csr &&& not32 zimm),
      [ZEvent.csrRead csr, ZEvent.regWrite rd (cpu.csr_read csr),
        ZEvent.csrWrite csr (cpu.csr_read csr &&& not32 zimm)],
      by simp [zicsr_execute, h], by simp, by simp, ?_, ?_, ?_⟩
    · apply iff_of_true
      · exact ⟨csr, cpu.csr_read csr &&& not32 zimm, by simp⟩
      · exact h
    · intro _
      exact csr_read_csr_write _ _ _
    · intro hc
      exact absurd hc h

/-- Claim C7: the CSR-access discipline of the Zicsr executor.  For CSRRW
and CSRRWI with rd = 0, the trace holds no CSR read and no register write;
with rd ≠ 0 it writes the old CSR value to rd strictly before writing the
new value (rs1 value, resp. zimm) to the CSR; the CSR always ends holding
the new value.  For CSRRS/CSRRC/CSRRSI/CSRRCI the old CSR value is always
written to rd, and a CSR write-back (old OR source, resp. old AND NOT
source) occurs iff the source register index resp. immediate is non-zero. -/
theorem C7_zicsr_discipline (cpu : CpuCore) (rd rs1 zimm csr : Nat) :
    (∃ s tr, zicsr_execute cpu (RvInstr.Csrrw rd rs1 csr) = some (s, tr) ∧
      (rd = 0 → tr.countP ZEvent.isCsrRead = 0 ∧ tr.countP ZEvent.isRegWrite = 0) ∧
      (rd ≠ 0 → ∃ i j, i < j ∧
        tr.get? i = some (ZEvent.regWrite rd (cpu.csr_read csr)) ∧
        tr.get? j = some (ZEvent.csrWrite csr (cpu.read_reg rs1))) ∧
      s.csr_read csr = cpu.read_reg rs1) ∧
    (∃ s tr, zicsr_execute cpu (RvInstr.Csrrwi rd zimm csr) = some (s, tr) ∧
      (rd = 0 → tr.countP ZEvent.isCsrRead = 0 ∧ tr.countP ZEvent.isRegWrite = 0) ∧
      (rd ≠ 0 → ∃ i j, i < j ∧
        tr.get? i = some (ZEvent.regWrite rd (cpu.csr_read csr)) ∧
        tr.get? j = some (ZEvent.csrWrite csr zimm)) ∧
      s.csr_read csr = zimm) ∧
    (∃ s tr, zicsr_execute cpu (RvInstr.Csrrs rd rs1 csr) = some (s, tr) ∧
      ZEvent.csrRead csr ∈ tr ∧
      ZEvent.regWrite rd (cpu.csr_read csr) ∈ tr ∧
      ((∃ a v, ZEvent.csrWrite a v ∈ tr) ↔ rs1 ≠ 0) ∧
      (rs1 ≠ 0 → s.csr_read csr =
        cpu.csr_read csr ||| (cpu.write_reg rd (cpu.csr_read csr)).read_reg rs1) ∧
      (rs1 = 0 → s = cpu.write_reg rd (cpu.csr_read csr))) ∧
    (∃ s tr, zicsr_execute cpu (RvInstr.Csrrc rd rs1 csr) = some (s, tr) ∧
      ZEvent.csrRead csr ∈ tr ∧
      ZEvent.regWrite rd (cpu.csr_read csr) ∈ tr ∧
      ((∃ a v, ZEvent.csrWrite a v ∈ tr) ↔ rs1 ≠ 0) ∧
      (rs1 ≠ 0 → s.csr_read csr =
        cpu.csr_read csr &&&
          not32 ((cpu.write_reg rd (cpu.csr_read csr)).read_reg rs1)) ∧
      (rs1 = 0 → s = cpu.write_reg rd (cpu.csr_read csr))) ∧
    (∃ s tr, zicsr_execute cpu (RvInstr.Csrrsi rd zimm csr) = some (s, tr) ∧
      ZEvent.csrRead csr ∈ tr ∧
      ZEvent.regWrite rd (cpu.csr_read csr) ∈ tr ∧
      ((∃ a v, ZEvent.csrWrite a v ∈ tr) ↔ zimm ≠ 0) ∧
      (zimm ≠ 0 → s.csr_read csr = cpu.csr_read csr ||| zimm) ∧
      (zimm = 0 → s = cpu.write_reg rd (cpu.csr_read csr))) ∧
    (∃ s tr, zicsr_execute cpu (RvInstr.Csrrci rd zimm csr) = some (s, tr) ∧
      ZEvent.csrRead csr ∈ tr ∧
      ZEvent.regWrite rd (cpu.csr_read csr) ∈ tr ∧
      ((∃ a v, ZEvent.csrWrite a v ∈ tr) ↔ zimm ≠ 0) ∧
      (zimm ≠ 0 → s.csr_read csr = cpu.csr_read csr &&& not32 zimm) ∧
      (zimm = 0 → s = cpu.write_reg rd (cpu.csr_read csr))) :=
  ⟨zicsr_csrrw_spec cpu rd rs1 csr, zicsr_csrrwi_spec cpu rd zimm csr,
    zicsr_csrrs_spec cpu rd rs1 csr, zicsr_csrrc_spec cpu rd rs1 csr,
    zicsr_csrrsi_spec cpu rd zimm csr, zicsr_csrrci_spec cpu rd zimm csr⟩

/-- Claim C9 counterexample: FMIN.S on two quiet NaNs writes the canonical
NaN but leaves fcsr at 0 — the NV flag is NOT raised, while the claim says
both-NaN always raises NV. -/
theorem C9_counterexample :
    (handle_min_max fminmax_qnan_core 3 1 2 true).read_fp 3 = 0x7FC00000 ∧
    (handle_min_max fminmax_qnan_core 3 1 2 true).csr_read CSR_FCSR = 0 := by
  constructor <;> rfl

theorem read_fp_write_fp (cpu : CpuCore) (frd v : Nat)
    (h : cpu.status.fp.isSome = true) :
    (cpu.write_fp frd v).read_fp frd = v := by
  unfold CpuCore.write_fp CpuCore.read_fp
  cases hf : cpu.status.fp with
  | some f => simp
  | none => rw [hf] at h; simp at h

theorem read_fp_csr_write (cpu : CpuCore) (a v r : Nat) :
    (cpu.csr_write a v).read_fp r = cpu.read_fp r := by
  unfold CpuCore.csr_write CpuCore.read_fp Status.csr_write
  rfl

theorem csr_read_write_fp (cpu : CpuCore) (r v a : Nat) :
    (cpu.write_fp r v).csr_read a = cpu.csr_read a := by
  unfold CpuCore.write_fp CpuCore.csr_read Status.csr_read
  cases cpu.status.fp <;> rfl

theorem fp_isSome_write_fp (cpu : CpuCore) (r v : Nat) :
    ((cpu.write_fp r v).status.fp).isSome = cpu.status.fp.isSome := by
  unfold CpuCore.write_fp
  cases hf : cpu.status.fp <;> simp [hf]

theorem zero_bits_cases (a : Nat) (hlt : a < 2 ^ 32)
    (hz : f32_is_zero_bits a = true) : a = 0 ∨ a = 0x80000000 := by
  unfold f32_is_zero_bits at hz
  rw [show (0x7FFFFFFF : Nat) = 2 ^ 31 - 1 by norm_num,
    Nat.and_pow_two_sub_one_eq_mod] at hz
  simp at hz
  omega

/-- Claim C9 (amended): FMIN.S/FMAX.S semantics of `handle_min_max`.  When
both operands are NaN the destination gets the canonical NaN 0x7FC00000;
when exactly one is NaN the result is the other operand; the NV flag is
ORed into fcsr exactly when a signaling NaN participates (two quiet NaNs
raise nothing); when both operands are zeros, FMIN yields -0 iff a -0 is
present (else +0) and FMAX yields +0 iff a +0 is present (else -0). -/
theorem C9_fminmax_amended (cpu : CpuCore) (frd frs1 frs2 : Nat) (is_min : Bool)
    (hfp : cpu.status.fp.isSome = true)
    (ha : cpu.read_fp frs1 < 2 ^ 32) (hb : cpu.read_fp frs2 < 2 ^ 32) :
    (f32_is_nan_bits (cpu.read_fp frs1) = true →
      f32_is_nan_bits (cpu.read_fp frs2) = true →
      (handle_min_max cpu frd frs1 frs2 is_min).read_fp frd = 0x7FC00000) ∧
    (f32_is_nan_bits (cpu.read_fp frs1) = true →
      f32_is_nan_bits (cpu.read_fp frs2) = false →
      (handle_min_max cpu frd frs1 frs2 is_min).read_fp frd = cpu.read_fp frs2) ∧
    (f32_is_nan_bits (cpu.read_fp frs1) = false →
      f32_is_nan_bits (cpu.read_fp frs2) = true →
      (handle_min_max cpu frd frs1 frs2 is_min).read_fp frd = cpu.read_fp frs1) ∧
    ((handle_min_max cpu frd frs1 frs2 is_min).csr_read CSR_FCSR =
      (if (is_signaling_nan_bits (cpu.read_fp frs1) ||
           is_signaling_nan_bits (cpu.read_fp frs2)) = true
       then cpu.csr_read CSR_FCSR ||| fflags_NV
       else cpu.csr_read CSR_FCSR)) ∧
    (f32_is_zero_bits (cpu.read_fp frs1) = true →
      f32_is_zero_bits (cpu.read_fp frs2) = true →
      (handle_min_max cpu frd frs1 frs2 true).read_fp frd =
        (if cpu.read_fp frs1 = 0x80000000 ∨ cpu.read_fp frs2 = 0x80000000
         then 0x80000000 else 0)) ∧
    (f32_is_zero_bits (cpu.read_fp frs1) = true →
      f32_is_zero_bits (cpu.read_fp frs2) = true →
      (handle_min_max cpu frd frs1 frs2 false).read_fp frd =
        (if cpu.read_fp frs1 = 0 ∨ cpu.read_fp frs2 = 0 then 0 else 0x80000000)) := by
  refine ⟨?_, ?_, ?_, ?_, ?_, ?_⟩
  · intro h1 h2
    by_cases hs : (is_signaling_nan_bits (cpu.read_fp frs1) ||
        is_signaling_nan_bits (cpu.read_fp frs2)) = true <;>
      simp [handle_min_max, set_fflags, h1, h2, hs, fflags_NV, CANONICAL_NAN,
        read_fp_csr_write, read_fp_write_fp _ _ _ hfp]
  · intro h1 h2
    by_cases hs : (is_signaling_nan_bits (cpu.read_fp frs1) ||
        is_signaling_nan_bits (cpu.read_fp frs2)) = true <;>
      simp [handle_min_max, set_fflags, h1, h2, hs, fflags_NV,
        read_fp_csr_write, read_fp_write_fp _ _ _ hfp]
  · intro h1 h2
    by_cases hs : (is_signaling_nan_bits (cpu.read_fp frs1) ||
        is_signaling_nan_bits (cpu.read_fp frs2)) = true <;>
      simp [handle_min_max, set_fflags, h1, h2, hs, fflags_NV,
        read_fp_csr_write, read_fp_write_fp _ _ _ hfp]
  · by_cases hs : (is_signaling_nan_bits (cpu.read_fp frs1) ||
        is_signaling_nan_bits (cpu.read_fp frs2)) = true <;>
      simp [handle_min_max, set_fflags, hs, fflags_NV, csr_read_write_fp,
        csr_read_csr_write]
  · intro h1 h2
    rcases zero_bits_cases _ ha h1 with hc1 | hc1 <;>
      rcases zero_bits_cases _ hb h2 with hc2 | hc2 <;>
      · simp +decide [handle_min_max, set_fflags, hc1, hc2, f32_is_nan_bits,
          is_signaling_nan_bits, f32_is_zero_bits, f32_lt, f32_ord, fflags_NV,
          read_fp_csr_write, read_fp_write_fp _ _ _ hfp]
  · intro h1 h2
    rcases zero_bits_cases _ ha h1 with hc1 | hc1 <;>
      rcases zero_bits_cases _ hb h2 with hc2 | hc2 <;>
      · simp +decide [handle_min_max, set_fflags, hc1, hc2, f32_is_nan_bits,
          is_signaling_nan_bits, f32_is_zero_bits, f32_lt, f32_ord, fflags_NV,
          read_fp_csr_write, read_fp_write_fp _ _ _ hfp]

/-- Witness for C9: on the signaling-NaN core, FMIN raises NV into fcsr as
the amended flag clause states. -/
theorem C9_fminmax_amended_witness :
    (handle_min_max fminmax_snan_core 3 1 2 true).csr_read CSR_FCSR =
      (if (is_signaling_nan_bits (fminmax_snan_core.read_fp 1) ||
           is_signaling_nan_bits (fminmax_snan_core.read_fp 2)) = true
       then fminmax_snan_core.csr_read CSR_FCSR ||| fflags_NV
       else fminmax_snan_core.csr_read CSR_FCSR) :=
  (C9_fminmax_amended fminmax_snan_core 3 1 2 true rfl (by decide)
    (by decide)).2.2.2.1

/-- Claim C6: in a step whose 4-byte instruction fetch at the PC fails, the
core raises a trap with cause InstructionAccessFault: mcause receives the
cause value 1, mepc the faulting PC, and control transfers to the mtvec
trap target — for every executor behavior `exec`. -/
theorem C6_fetch_fault_traps (cpu : CpuCore) (load32 : Nat → Except MemError Nat)
    (exec : CpuCore → Nat → CpuCore) (e : MemError)
    (hrun : cpu.state = CpuState.Running)
    (hfail : load32 cpu.pc = Except.error e) :
    (step_fetch cpu load32 exec).csr_read CSR_MCAUSE =
      TrapCause.code TrapCause.InstructionAccessFault ∧
    TrapCause.code TrapCause.InstructionAccessFault = 1 ∧
    (step_fetch cpu load32 exec).csr_read CSR_MEPC = cpu.pc ∧
    (step_fetch cpu load32 exec).privilege = PrivilegeMode.Machine ∧
    (step_fetch cpu load32 exec).pc =
      calculate_trap_pc (cpu.csr_read CSR_MTVEC) TrapCause.InstructionAccessFault := by
  have hstep : step_fetch cpu load32 exec =
      cpu.take_trap_at TrapCause.InstructionAccessFault cpu.pc cpu.pc := by
    unfold step_fetch
    rw [if_neg (by simp [hrun]), hfail]
  rw [hstep]
  unfold CpuCore.take_trap_at
  simp only [CpuCore.csr_write, CpuCore.csr_read, CpuCore.set_pc, CpuCore.set_privilege,
    CpuCore.privilege, Status.csr_write, Status.csr_read,
    CSR_MEPC, CSR_MCAUSE, CSR_MTVAL, CSR_MSTATUS, CSR_MTVEC]
  norm_num
  repeat' apply And.intro
  all_goals rfl

/-- Witness for C6: with a memory whose word loads are all out of range,
the step writes cause 1 (InstructionAccessFault) to mcause. -/
theorem C6_fetch_fault_traps_witness :
    (step_fetch fetch_fault_core
        (fun a => Except.error (MemError.OutOfRange a AccessSize.Word 0 16))
        (fun c _ => c)).csr_read CSR_MCAUSE =
      TrapCause.code TrapCause.InstructionAccessFault :=
  (C6_fetch_fault_traps fetch_fault_core
    (fun a => Except.error (MemError.OutOfRange a AccessSize.Word 0 16))
    (fun c _ => c) (MemError.OutOfRange 0x40 AccessSize.Word 0 16) rfl rfl).1

end AlludeSim
